import Mathlib

/-!
Verification of the name-reconciliation core (`match_bioguide_id`) of the
GPO member-photo scraper, shallowly embedded from
`scripts/gpo_member_photos.py`.

The data model follows §3 of the design document: a pictorial-guide
`SourceRecord`, canonical-legislator `CandidateRecord`s with a term
history, and a `MatchOutcome` that is either a Bioguide identifier or a
typed failure.  The Python matcher can additionally raise `IndexError`
when it evaluates `m["terms"][-1]` on an empty term list; the embedding
makes that path explicit as `MatchOutcome.indexError`.
-/

namespace GpoPhotos

/-- One term of office: `{"type": "sen" | "rep", "state": ...}` as read by
the matcher (other JSON fields are never consulted). -/
structure Term where
  type : String
  state : String
  deriving DecidableEq

/-- The `name` object of a canonical legislator entry.  `middle` and
`nickname` are optional keys in the JSON, modelled with `Option`. -/
structure CandName where
  first : String
  last : String
  middle : Option String
  nickname : Option String
  deriving DecidableEq

/-- The `id` object of a canonical legislator entry, of which the matcher
reads only `bioguide`. -/
structure CandId where
  bioguide : String
  deriving DecidableEq

/-- A canonical legislator entry (`legislators_current` element). -/
structure CandidateRecord where
  id : CandId
  name : CandName
  terms : List Term
  deriving DecidableEq

/-- A pictorial-guide entry (`member_pictorial`), with the fields the
matcher reads: the display `name`, `lastName`, `firstName`, `memberType`
and `stateId`; `district` is present in the feed but never consulted. -/
structure SourceRecord where
  name : String
  lastName : String
  firstName : String
  memberType : String
  stateId : String
  district : Option Nat
  deriving DecidableEq

/-- The two matcher-specific failure kinds of §7. -/
inductive FailKind where
  | NotFound
  | Ambiguous
  deriving DecidableEq

/-- Result of the matcher: a Bioguide identifier, a typed failure carrying
the source display name, or the `IndexError` escape of `terms[-1]` on an
empty list (Python line 139). -/
inductive MatchOutcome where
  | ok (bioguide : String)
  | failure (kind : FailKind) (detail : String)
  | indexError
  deriving DecidableEq

/-- `s.replace(" ", "")`: remove every space character. -/
def removeSpaces (s : String) : String :=
  ⟨s.toList.filter (fun c => c ≠ ' ')⟩

/-- `p` is a prefix of `s` (Boolean, on character lists). -/
def startsWith : List Char → List Char → Bool
  | [], _ => true
  | _ :: _, [] => false
  | a :: as, b :: bs => a == b && startsWith as bs

/-- Python's substring test `p in s`, on character lists. -/
def isSubstr : List Char → List Char → Bool
  | p, [] => p.isEmpty
  | p, c :: t => startsWith p (c :: t) || isSubstr p t

/-- Python's substring test `needle in haystack` on strings. -/
def strContains (needle haystack : String) : Bool :=
  isSubstr needle.toList haystack.toList

/-- The fixed nickname-to-formal-name table `common_nicknames`
(lines 92–98). -/
def common_nicknames : List (String × String) :=
  [("Nick", "Nicolas"), ("Daniel", "Dan"), ("Mike", "Michael"),
   ("Richard", "Rich"), ("Christopher", "Chris")]

/-- `"nickname" in m["name"] and m["name"]["nickname"] == s`. -/
def nicknameEq (m : CandidateRecord) (s : String) : Bool :=
  match m.name.nickname with
  | some n => n == s
  | none => false

/-- `"middle" in m["name"] and firstName in m["name"]["middle"]`
(lines 115–118). -/
def middleContains (src : SourceRecord) (m : CandidateRecord) : Bool :=
  match m.name.middle with
  | some mid => strContains src.firstName mid
  | none => false

/-- `firstName in common_nicknames and common_nicknames[firstName] ==
m["name"]["first"]` (lines 121–125). -/
def tableMatch (src : SourceRecord) (m : CandidateRecord) : Bool :=
  match common_nicknames.lookup src.firstName with
  | some v => v == m.name.first
  | none => false

/-- The direct-order name test (lines 102–126): last name with spaces
removed must equal the source's last name, then the chained
`if`/`elif` rules 1a–1e. -/
def direct_name_match (src : SourceRecord) (m : CandidateRecord) : Bool :=
  if removeSpaces m.name.last == src.lastName then
    if m.name.first == src.firstName || nicknameEq m src.firstName then
      true
    else if strContains src.firstName m.name.first then
      true
    else if middleContains src m then
      true
    else if tableMatch src m then
      true
    else
      false
  else
    false

/-- The swapped-order condition of lines 129–134 (the conjunction that
lines 129–133 test before setting `name_matches = True`). -/
def swapped_name_match (src : SourceRecord) (m : CandidateRecord) : Bool :=
  m.name.first == src.lastName &&
    (removeSpaces m.name.last == src.firstName || nicknameEq m src.firstName)

/-- The full name-equivalence test: the direct rule, then — only if it did
not set `name_matches` — the swapped-order rule (lines 100–134). -/
def name_matches (src : SourceRecord) (m : CandidateRecord) : Bool :=
  let nm := direct_name_match src m
  if !nm && m.name.first == src.lastName then
    removeSpaces m.name.last == src.firstName || nicknameEq m src.firstName
  else
    nm

/-- `"sen" if member_pictorial["memberType"] == "Senator" else "rep"`
(line 140). -/
def expected_type (src : SourceRecord) : String :=
  if src.memberType == "Senator" then "sen" else "rep"

/-- The office-consistency test on one term (lines 141–144). -/
def office_matches (src : SourceRecord) (t : Term) : Bool :=
  t.state == src.stateId && t.type == expected_type src

/-- The candidate loop of lines 100–145: for each candidate whose name
matches, read `m["terms"][-1]` (an `IndexError`, modelled as
`Except.error`, when `terms` is empty) and keep the candidate when the
office test passes. -/
def collect_matches (src : SourceRecord) :
    List CandidateRecord → Except Unit (List CandidateRecord)
  | [] => Except.ok []
  | m :: rest =>
    if name_matches src m then
      match m.terms.getLast? with
      | none => Except.error ()
      | some t =>
        match collect_matches src rest with
        | Except.error e => Except.error e
        | Except.ok ms =>
          Except.ok (if office_matches src t then m :: ms else ms)
    else
      collect_matches src rest

/-- The matcher `match_bioguide_id` (lines 82–153): exactly one surviving
candidate returns its Bioguide ID; zero raises the "No Bioguide ID match"
`ValueError` (`NotFound`); more than one raises the "Multiple" one
(`Ambiguous`); both carry the source display name. -/
def match_bioguide_id (src : SourceRecord) (cands : List CandidateRecord) :
    MatchOutcome :=
  match collect_matches src cands with
  | Except.error _ => MatchOutcome.indexError
  | Except.ok found =>
    match found with
    | [y] => MatchOutcome.ok y.id.bioguide
    | [] => MatchOutcome.failure FailKind.NotFound src.name
    | _ => MatchOutcome.failure FailKind.Ambiguous src.name

/-- A candidate passes both the name test and the office test on its most
recent term. -/
def passes (src : SourceRecord) (m : CandidateRecord) : Bool :=
  name_matches src m &&
    (match m.terms.getLast? with
     | some t => office_matches src t
     | none => false)

/-- A candidate that makes the loop raise: name matches but `terms` is
empty. -/
def badTerms (src : SourceRecord) (m : CandidateRecord) : Bool :=
  name_matches src m && m.terms.isEmpty

/-! ### Basic lemmas about the string helpers -/

theorem startsWith_iff (p s : List Char) :
    startsWith p s = true ↔ ∃ rest, s = p ++ rest := by
  induction p generalizing s with
  | nil =>
    simp only [startsWith, List.nil_append, true_iff]
    exact ⟨s, rfl⟩
  | cons a as ih =>
    cases s with
    | nil => simp [startsWith]
    | cons b bs =>
      rw [startsWith]
      simp only [Bool.and_eq_true, beq_iff_eq, ih, List.cons_append,
        List.cons.injEq]
      constructor
      · rintro ⟨rfl, rest, rfl⟩
        exact ⟨rest, rfl, rfl⟩
      · rintro ⟨rest, rfl, rfl⟩
        exact ⟨rfl, rest, rfl⟩

theorem isSubstr_iff (p s : List Char) :
    isSubstr p s = true ↔ ∃ pre post, s = pre ++ p ++ post := by
  induction s with
  | nil =>
    rw [isSubstr]
    simp only [List.isEmpty_iff]
    constructor
    · rintro rfl
      exact ⟨[], [], rfl⟩
    · rintro ⟨pre, post, h⟩
      rcases List.append_eq_nil.mp h.symm with ⟨h1, -⟩
      exact (List.append_eq_nil.mp h1).2
  | cons c t ih =>
    rw [isSubstr]
    simp only [Bool.or_eq_true, startsWith_iff, ih]
    constructor
    · rintro (⟨rest, h⟩ | ⟨pre, post, h⟩)
      · exact ⟨[], rest, by simpa using h⟩
      · exact ⟨c :: pre, post, by simp [h]⟩
    · rintro ⟨pre, post, h⟩
      cases pre with
      | nil => exact Or.inl ⟨post, by simpa using h⟩
      | cons x xs =>
        rw [List.cons_append, List.cons_append, List.cons.injEq] at h
        exact Or.inr ⟨xs, post, h.2⟩

theorem isSubstr_nil_left (s : List Char) : isSubstr [] s = true := by
  cases s <;> simp [isSubstr, startsWith]

theorem strContains_iff (needle haystack : String) :
    strContains needle haystack = true ↔
      ∃ pre post, haystack.toList = pre ++ needle.toList ++ post := by
  unfold strContains
  exact isSubstr_iff _ _

theorem nicknameEq_iff (m : CandidateRecord) (s : String) :
    nicknameEq m s = true ↔ m.name.nickname = some s := by
  unfold nicknameEq
  cases m.name.nickname <;> simp

theorem middleContains_iff (src : SourceRecord) (m : CandidateRecord) :
    middleContains src m = true ↔
      ∃ mid, m.name.middle = some mid ∧
        ∃ pre post, mid.toList = pre ++ src.firstName.toList ++ post := by
  unfold middleContains
  cases h : m.name.middle <;> simp [h, strContains_iff]

theorem tableMatch_iff (src : SourceRecord) (m : CandidateRecord) :
    tableMatch src m = true ↔
      ∃ v, common_nicknames.lookup src.firstName = some v ∧
        v = m.name.first := by
  unfold tableMatch
  cases h : common_nicknames.lookup src.firstName <;> simp [h]

/-! ### Structural lemmas about the matcher -/

/-- The chained `if`/`elif` of the direct rule is the disjunction of its
five branches, guarded by the last-name comparison. -/
theorem direct_eq_disj (src : SourceRecord) (m : CandidateRecord) :
    direct_name_match src m =
      (removeSpaces m.name.last == src.lastName &&
        (m.name.first == src.firstName || nicknameEq m src.firstName ||
          strContains src.firstName m.name.first || middleContains src m ||
          tableMatch src m)) := by
  unfold direct_name_match
  cases h1 : (removeSpaces m.name.last == src.lastName) <;>
    cases h2 : (m.name.first == src.firstName) <;>
      cases h3 : nicknameEq m src.firstName <;>
        cases h4 : strContains src.firstName m.name.first <;>
          cases h5 : middleContains src m <;>
            cases h6 : tableMatch src m <;>
              simp [h1, h2, h3, h4, h5, h6]

/-- The full name test is the disjunction of the direct rule and the
swapped-order rule. -/
theorem name_matches_eq_disj (src : SourceRecord) (m : CandidateRecord) :
    name_matches src m =
      (direct_name_match src m || swapped_name_match src m) := by
  unfold name_matches swapped_name_match
  cases hd : direct_name_match src m <;>
    cases h1 : (m.name.first == src.lastName) <;>
      cases h2 : (removeSpaces m.name.last == src.firstName) <;>
        cases h3 : nicknameEq m src.firstName <;>
          simp [hd, h1, h2, h3]

/-- A direct-rule match always makes the name test succeed. -/
theorem name_matches_of_direct (src : SourceRecord) (m : CandidateRecord)
    (h : direct_name_match src m = true) : name_matches src m = true := by
  rw [name_matches_eq_disj, h, Bool.true_or]

/-- The candidate loop either raises on the first name-matching candidate
with an empty `terms` list, or returns exactly the candidates passing both
tests, in input order. -/
theorem collect_matches_eq (src : SourceRecord) (l : List CandidateRecord) :
    collect_matches src l =
      if l.any (badTerms src) then Except.error ()
      else Except.ok (l.filter (passes src)) := by
  induction l with
  | nil => simp [collect_matches]
  | cons m rest ih =>
    by_cases hn : name_matches src m = true
    · cases hlt : m.terms.getLast? with
      | none =>
        have hempty : m.terms = [] := List.getLast?_eq_none_iff.mp hlt
        simp [collect_matches, hn, hlt, badTerms, hempty]
      | some t =>
        have hne : m.terms.isEmpty = false := by
          cases htm : m.terms with
          | nil => rw [htm] at hlt; simp [List.getLast?] at hlt
          | cons a as => simp
        by_cases hb : rest.any (badTerms src) = true
        · simp [collect_matches, hn, hlt, ih, hb, badTerms, hne]
        · simp only [Bool.not_eq_true] at hb
          simp [collect_matches, hn, hlt, ih, hb, badTerms, hne, passes,
            List.filter_cons]
    · simp only [Bool.not_eq_true] at hn
      simp [collect_matches, hn, ih, badTerms, passes, List.any_cons,
        List.filter_cons]

/-- Closed form of the matcher: raise if some name-matching candidate has
no terms, otherwise resolve the filtered list by its length. -/
theorem match_bioguide_id_eq (src : SourceRecord) (l : List CandidateRecord) :
    match_bioguide_id src l =
      if l.any (badTerms src) then MatchOutcome.indexError
      else
        match l.filter (passes src) with
        | [y] => MatchOutcome.ok y.id.bioguide
        | [] => MatchOutcome.failure FailKind.NotFound src.name
        | _ => MatchOutcome.failure FailKind.Ambiguous src.name := by
  unfold match_bioguide_id
  rw [collect_matches_eq]
  by_cases hb : l.any (badTerms src) = true <;> simp [hb]

/-- No name-matching candidate has an empty term list, so the loop cannot
raise. -/
theorem any_badTerms_eq_false (src : SourceRecord) (cands : List CandidateRecord)
    (h : ∀ m ∈ cands, name_matches src m = true → m.terms ≠ []) :
    ¬ cands.any (badTerms src) = true := by
  rw [List.any_eq_true]
  rintro ⟨m, hm, hbad⟩
  unfold badTerms at hbad
  rw [Bool.and_eq_true, List.isEmpty_iff] at hbad
  exact h m hm hbad.1 hbad.2

/-- Reattaching a string's character list yields the string. -/
theorem string_mk_toList (s : String) : (⟨s.toList⟩ : String) = s := rfl

/-! ### The direct-order rule, stated in the specification's words -/

/-- The specification's wording of the direct-order name-equivalence test
(§4.1 rule 1, branches a–e). -/
def DirectRuleSpec (src : SourceRecord) (m : CandidateRecord) : Prop :=
  removeSpaces m.name.last = src.lastName ∧
    (m.name.first = src.firstName ∨
      m.name.nickname = some src.firstName ∨
      (∃ pre post, m.name.first.toList = pre ++ src.firstName.toList ++ post) ∨
      (∃ mid, m.name.middle = some mid ∧
        ∃ pre post, mid.toList = pre ++ src.firstName.toList ++ post) ∨
      (∃ v, common_nicknames.lookup src.firstName = some v ∧
        v = m.name.first))

/-! ### Concrete records used by witnesses and counterexamples -/

def srcBooker : SourceRecord :=
  { name := "Booker, Cory A.", lastName := "Booker", firstName := "Cory",
    memberType := "Senator", stateId := "NJ", district := some 0 }

def candBooker : CandidateRecord :=
  { id := { bioguide := "B001288" },
    name := { first := "Cory", last := "Booker", middle := some "Anthony",
              nickname := none },
    terms := [{ type := "sen", state := "NJ" }] }

/-- A candidate with an empty term history whose name does not match the
Booker source record. -/
def candNoTerms : CandidateRecord :=
  { id := { bioguide := "Z000000" },
    name := { first := "Zadie", last := "Zimmer", middle := none,
              nickname := none },
    terms := [] }

/-- A source record whose last name contains an internal space, with the
candidate carrying the identical name fields. -/
def srcLegerFernandez : SourceRecord :=
  { name := "Leger Fernandez, Teresa", lastName := "Leger Fernandez",
    firstName := "Teresa", memberType := "Representative", stateId := "NM",
    district := some 3 }

def candLegerFernandez : CandidateRecord :=
  { id := { bioguide := "L000273" },
    name := { first := "Teresa", last := "Leger Fernandez", middle := none,
              nickname := none },
    terms := [{ type := "rep", state := "NM" }] }

/-- A source record with an empty first name. -/
def srcEmptyFirst : SourceRecord :=
  { name := "Booker, ", lastName := "Booker", firstName := "",
    memberType := "Senator", stateId := "NJ", district := none }

/-! ### Claim theorems -/

/-- C1: the matcher collects all candidates passing both the name test and
the office test; exactly one passing candidate yields its Bioguide
identifier, zero yields a `NotFound` failure carrying the source display
name, and more than one yields an `Ambiguous` failure carrying the display
name. -/
theorem c1_resolution_policy (src : SourceRecord)
    (cands : List CandidateRecord)
    (h : ∀ m ∈ cands, name_matches src m = true → m.terms ≠ []) :
    (∀ y, cands.filter (passes src) = [y] →
      match_bioguide_id src cands = MatchOutcome.ok y.id.bioguide) ∧
    (cands.filter (passes src) = [] →
      match_bioguide_id src cands =
        MatchOutcome.failure FailKind.NotFound src.name) ∧
    (2 ≤ (cands.filter (passes src)).length →
      match_bioguide_id src cands =
        MatchOutcome.failure FailKind.Ambiguous src.name) := by
  have hb := any_badTerms_eq_false src cands h
  refine ⟨?_, ?_, ?_⟩
  · intro y hy
    rw [match_bioguide_id_eq, if_neg hb, hy]
  · intro h0
    rw [match_bioguide_id_eq, if_neg hb, h0]
  · intro h2
    rw [match_bioguide_id_eq, if_neg hb]
    rcases hf : cands.filter (passes src) with _ | ⟨a, _ | ⟨b, rest⟩⟩
    · rw [hf] at h2; simp at h2
    · rw [hf] at h2; simp at h2
    · rfl

/-- C1 witness: the Booker scenario resolves to the single passing
candidate's identifier. -/
theorem c1_witness :
    match_bioguide_id srcBooker [candBooker] = MatchOutcome.ok "B001288" :=
  (c1_resolution_policy srcBooker [candBooker] (by decide)).1 candBooker
    (by decide)

/-- C2: the direct-order name-equivalence test succeeds exactly when the
candidate's space-stripped last name equals the source's last name and one
of the five branches (exact first name, nickname field, substring of first
name, substring of middle name, nickname-table image) holds. -/
theorem c2_direct_rule_iff (src : SourceRecord) (m : CandidateRecord) :
    direct_name_match src m = true ↔ DirectRuleSpec src m := by
  rw [direct_eq_disj]
  simp only [Bool.and_eq_true, Bool.or_eq_true, beq_iff_eq, nicknameEq_iff,
    middleContains_iff, tableMatch_iff, strContains_iff, DirectRuleSpec,
    or_assoc]

/-- C3: a name-matching candidate qualifies exactly when the last term's
state equals the source's `stateId` and its type is `sen` for a Senator
source and `rep` otherwise; earlier terms and the source's district field
do not influence the result. -/
theorem c3_office_test (src : SourceRecord) (m : CandidateRecord)
    (ts : List Term) (t : Term)
    (hname : name_matches src m = true) (hterms : m.terms = ts ++ [t]) :
    (passes src m = true ↔
      (t.state = src.stateId ∧
        t.type = (if src.memberType = "Senator" then "sen" else "rep"))) ∧
    (∀ ts' : List Term,
      passes src { m with terms := ts' ++ [t] } = passes src m) ∧
    (∀ d : Option Nat, passes { src with district := d } m = passes src m) := by
  have hlast : m.terms.getLast? = some t := by
    rw [hterms]; exact List.getLast?_concat _
  refine ⟨?_, ?_, fun d => rfl⟩
  · by_cases hmt : src.memberType = "Senator" <;>
      simp [passes, hname, hlast, office_matches, expected_type, hmt]
  · intro ts'
    unfold passes
    have h2 : ({ m with terms := ts' ++ [t] } : CandidateRecord).terms.getLast?
        = some t := List.getLast?_concat _
    rw [hlast, h2]
    rfl

/-- C3 witness: the office test at the Booker scenario. -/
theorem c3_witness :
    passes srcBooker candBooker = true ↔
      ((⟨"sen", "NJ"⟩ : Term).state = srcBooker.stateId ∧
        (⟨"sen", "NJ"⟩ : Term).type =
          (if srcBooker.memberType = "Senator" then "sen" else "rep")) :=
  (c3_office_test srcBooker candBooker [] ⟨"sen", "NJ"⟩ (by decide)
    (by decide)).1

/-- C4: the swapped-order rule is consulted only when the direct rule did
not match; when the direct rule fails, the name test succeeds exactly when
the candidate's first name equals the source's last name and the
space-stripped last name or nickname equals the source's first name; a
direct match always wins. -/
theorem c4_swapped_rule (src : SourceRecord) (m : CandidateRecord) :
    (direct_name_match src m = true → name_matches src m = true) ∧
    (direct_name_match src m = false →
      (name_matches src m = true ↔ swapped_name_match src m = true)) := by
  refine ⟨name_matches_of_direct src m, fun hd => ?_⟩
  rw [name_matches_eq_disj, hd, Bool.false_or]

/-- C4 witness: a direct-rule match makes the name test succeed at the
Booker scenario. -/
theorem c4_witness : name_matches srcBooker candBooker = true :=
  (c4_swapped_rule srcBooker candBooker).1 (by decide)

/-- C5: on candidate records satisfying the data-model invariant that the
term history is non-empty, the matcher always returns an identifier or one
of exactly the two typed failures, both carrying the source display
name. -/
theorem c5_no_fatal_path (src : SourceRecord) (cands : List CandidateRecord)
    (h : ∀ m ∈ cands, m.terms ≠ []) :
    (∃ b, match_bioguide_id src cands = MatchOutcome.ok b) ∨
      match_bioguide_id src cands =
        MatchOutcome.failure FailKind.NotFound src.name ∨
      match_bioguide_id src cands =
        MatchOutcome.failure FailKind.Ambiguous src.name := by
  have hb := any_badTerms_eq_false src cands (fun m hm _ => h m hm)
  rw [match_bioguide_id_eq, if_neg hb]
  rcases cands.filter (passes src) with _ | ⟨a, _ | ⟨b, rest⟩⟩
  · exact Or.inr (Or.inl rfl)
  · exact Or.inl ⟨a.id.bioguide, rfl⟩
  · exact Or.inr (Or.inr rfl)

/-- C5 witness: the Booker scenario lands in one of the three allowed
outcomes. -/
theorem c5_witness :
    (∃ b, match_bioguide_id srcBooker [candBooker] = MatchOutcome.ok b) ∨
      match_bioguide_id srcBooker [candBooker] =
        MatchOutcome.failure FailKind.NotFound srcBooker.name ∨
      match_bioguide_id srcBooker [candBooker] =
        MatchOutcome.failure FailKind.Ambiguous srcBooker.name :=
  c5_no_fatal_path srcBooker [candBooker] (by decide)

/-- C6 counterexample: a candidate with first and last name identical to
the source's fails the name-equivalence test when the shared last name
contains an internal space, because the code compares the candidate's
space-stripped last name against the source's unmodified one. -/
theorem c6_counterexample :
    candLegerFernandez.name.first = srcLegerFernandez.firstName ∧
    candLegerFernandez.name.last = srcLegerFernandez.lastName ∧
    direct_name_match srcLegerFernandez candLegerFernandez = false ∧
    name_matches srcLegerFernandez candLegerFernandez = false := by
  refine ⟨rfl, rfl, ?_, ?_⟩ <;> decide

/-- C6 (amended): every candidate whose first name equals the source's
first name and whose last name equals the source's last name and contains
no space satisfies direct-order rule 1a and passes the name-equivalence
test. -/
theorem c6_reflexive_amended (src : SourceRecord) (m : CandidateRecord)
    (hfirst : m.name.first = src.firstName)
    (hlast : m.name.last = src.lastName)
    (hnospace : ' ' ∉ m.name.last.toList) :
    direct_name_match src m = true ∧ name_matches src m = true := by
  have hfilter : m.name.last.toList.filter (fun c => decide (c ≠ ' '))
      = m.name.last.toList := by
    apply List.filter_eq_self.mpr
    intro c hc
    simp only [ne_eq, decide_eq_true_eq]
    exact fun h => hnospace (h ▸ hc)
  have hrm : removeSpaces m.name.last = m.name.last := by
    unfold removeSpaces
    rw [hfilter]
    exact string_mk_toList _
  have hd : direct_name_match src m = true := by
    rw [direct_eq_disj, hrm, hlast, hfirst]
    simp
  exact ⟨hd, name_matches_of_direct src m hd⟩

/-- C6 witness: the amended reflexivity at the Booker scenario. -/
theorem c6_witness :
    direct_name_match srcBooker candBooker = true ∧
      name_matches srcBooker candBooker = true :=
  c6_reflexive_amended srcBooker candBooker rfl rfl (by decide)

/-- C7: the matcher is deterministic — equal inputs produce equal
results. Purity holds by construction: the embedding is a total function
of the two arguments alone. -/
theorem c7_deterministic (src1 src2 : SourceRecord)
    (cands1 cands2 : List CandidateRecord)
    (hs : src1 = src2) (hc : cands1 = cands2) :
    match_bioguide_id src1 cands1 = match_bioguide_id src2 cands2 := by
  rw [hs, hc]

/-- C7 witness: two invocations at the Booker scenario agree. -/
theorem c7_witness :
    match_bioguide_id srcBooker [candBooker] =
      match_bioguide_id srcBooker [candBooker] :=
  c7_deterministic srcBooker srcBooker [candBooker] [candBooker] rfl rfl

/-- C8: under the precondition that every candidate passing the name test
has a non-empty term history, the candidate loop never takes the
out-of-bounds branch of `terms[-1]`: it returns the filtered list, and the
matcher never returns the `IndexError` outcome — in particular a candidate
with an empty term history whose name does not match is never indexed. -/
theorem c8_terms_access_safe (src : SourceRecord)
    (cands : List CandidateRecord)
    (h : ∀ m ∈ cands, name_matches src m = true → m.terms ≠ []) :
    collect_matches src cands = Except.ok (cands.filter (passes src)) ∧
      match_bioguide_id src cands ≠ MatchOutcome.indexError := by
  have hb := any_badTerms_eq_false src cands h
  refine ⟨by rw [collect_matches_eq, if_neg hb], ?_⟩
  rw [match_bioguide_id_eq, if_neg hb]
  rcases cands.filter (passes src) with _ | ⟨a, _ | ⟨b, rest⟩⟩ <;> simp

/-- C8 witness: a list containing a non-matching candidate with an empty
term history is processed without reaching the out-of-bounds branch. -/
theorem c8_witness :
    collect_matches srcBooker [candBooker, candNoTerms] =
        Except.ok ([candBooker, candNoTerms].filter (passes srcBooker)) ∧
      match_bioguide_id srcBooker [candBooker, candNoTerms] ≠
        MatchOutcome.indexError :=
  c8_terms_access_safe srcBooker [candBooker, candNoTerms] (by decide)

/-- C9: the matcher returns the same result on any two candidate lists
that are permutations of each other. -/
theorem c9_perm_invariant (src : SourceRecord)
    (l l' : List CandidateRecord) (h : l.Perm l') :
    match_bioguide_id src l = match_bioguide_id src l' := by
  have hany : l.any (badTerms src) = l'.any (badTerms src) := by
    rw [Bool.eq_iff_iff, List.any_eq_true, List.any_eq_true]
    constructor <;> rintro ⟨x, hx, hpx⟩
    · exact ⟨x, h.mem_iff.mp hx, hpx⟩
    · exact ⟨x, h.mem_iff.mpr hx, hpx⟩
  have hfilt : (l.filter (passes src)).Perm (l'.filter (passes src)) :=
    h.filter _
  rw [match_bioguide_id_eq, match_bioguide_id_eq, hany]
  by_cases hb : l'.any (badTerms src) = true
  · simp [hb]
  · simp only [Bool.not_eq_true] at hb
    simp only [hb, Bool.false_eq_true, if_false]
    rcases hf : l.filter (passes src) with _ | ⟨a, _ | ⟨b, rest⟩⟩
    · rw [hf] at hfilt
      rw [List.perm_nil.mp hfilt.symm]
    · rw [hf] at hfilt
      rw [List.perm_singleton.mp hfilt.symm]
    · rw [hf] at hfilt
      rcases hf' : l'.filter (passes src) with _ | ⟨a', _ | ⟨b', rest'⟩⟩
      · rw [hf'] at hfilt
        have hl := hfilt.length_eq
        simp at hl
      · rw [hf'] at hfilt
        have hl := hfilt.length_eq
        simp at hl
      · rfl

/-- C9 witness: swapping a two-element candidate list leaves the result
unchanged. -/
theorem c9_witness :
    match_bioguide_id srcBooker [candNoTerms, candBooker] =
      match_bioguide_id srcBooker [candBooker, candNoTerms] :=
  c9_perm_invariant srcBooker [candNoTerms, candBooker]
    [candBooker, candNoTerms] (List.Perm.swap candBooker candNoTerms [])

/-- C10: when the source's first name is empty, every candidate whose
space-stripped last name equals the source's last name passes the name
test, the rule-1c substring condition holding because the empty string is
a substring of every first name. -/
theorem c10_empty_first_name (src : SourceRecord) (m : CandidateRecord)
    (hfirst : src.firstName = "")
    (hlast : removeSpaces m.name.last = src.lastName) :
    strContains src.firstName m.name.first = true ∧
      name_matches src m = true := by
  have hnil : src.firstName.toList = [] := by rw [hfirst]; rfl
  have hsub : strContains src.firstName m.name.first = true := by
    unfold strContains
    rw [hnil]
    exact isSubstr_nil_left _
  have hd : direct_name_match src m = true := by
    rw [direct_eq_disj, hlast]
    simp [hsub]
  exact ⟨hsub, name_matches_of_direct src m hd⟩

/-- C10 witness: the empty-first-name source matches the Booker
candidate. -/
theorem c10_witness :
    strContains srcEmptyFirst.firstName candBooker.name.first = true ∧
      name_matches srcEmptyFirst candBooker = true :=
  c10_empty_first_name srcEmptyFirst candBooker rfl (by decide)

end GpoPhotos
